import Mathlib

/-!
Verification development for the tau point-source effective-area module
(src/effective_area.py of the poinsseta repository).

The Python module is shallowly embedded over the rationals.  Machine
floats are modelled by `ℚ`; numpy arrays by `List ℚ` (or `List (List ℚ)`
for 2-D grids); numpy masked arrays by `List (Option ℚ)`, where `none`
stands for a masked entry.  External collaborator modules
(poinsseta.geometry, poinsseta.tauexit, poinsseta.tauola, poinsseta.decay,
poinsseta.antenna) are not part of the embedded source: their outputs
enter the embedded `calculate` as oracle parameters, exactly at the
interface where the Python code consumes them.
-/

namespace Poinsseta

/-- Default absolute tolerance of numpy.isclose (1e-8). -/
def atol : ℚ := 1 / 100000000

/-- Default relative tolerance of numpy.isclose (1e-5). -/
def rtol : ℚ := 1 / 100000

/-- numpy.isclose on scalars with default tolerances:
absolute(a - b) <= atol + rtol * absolute(b). -/
def isclose (a b : ℚ) : Bool := decide (|a - b| ≤ atol + rtol * |b|)

/-- Elementwise np.isclose(xs, ys).all() for two equal-length arrays. -/
def allClose (xs ys : List ℚ) : Bool :=
  (List.zip xs ys).all (fun p => isclose p.1 p.2)

/-- The `args` dictionary built at the end of `calculate` and compared for
exact equality in `EffectiveArea.__add__`.  Keys: Enu, altitude, prototype,
maxview, icethickness, antennas, gain, trigger_SNR, minfreq, maxfreq. -/
structure Args where
  Enu : ℚ
  altitude : ℚ
  prototype : ℤ
  maxview : ℚ
  icethickness : ℤ
  antennas : ℤ
  gain : List ℚ
  trigger_SNR : ℚ
  minfreq : ℚ
  maxfreq : ℚ
deriving DecidableEq

/-- The result entity of the effective-area calculation
(`@attr.s class EffectiveArea`), field for field. -/
structure EffectiveArea where
  N0 : List ℚ
  elevation : List ℚ
  effective_area : List (List ℚ)
  geometric : List ℚ
  pexit : List ℚ
  pdecay : List ℚ
  ptrigger : List ℚ
  args : Args
deriving DecidableEq

/-- The method EffectiveArea.__add__: combine two results.  Mirrors the Python
method statement by statement: size check on the elevation grids,
np.isclose check, N0 sum, exact args equality check, then the unweighted
average 0.5 * (x + y) of every other array.  A raised ValueError is
modelled as `Except.error` carrying the message. -/
def EffectiveArea.add (self other : EffectiveArea) : Except String EffectiveArea :=
  if ¬ self.elevation.length = other.elevation.length then
    Except.error "Effective areas must have been evaluated at the same elevation angles"
  else if ¬ allClose self.elevation other.elevation then
    Except.error "Effective areas must have been evaluated at the same elevation angles"
  else
    let N0 := List.zipWith (fun x y => x + y) self.N0 other.N0
    if ¬ self.args = other.args then
      Except.error "Effective areas generated with different arguments!"
    else
      Except.ok
        { N0 := N0
          elevation := self.elevation
          effective_area :=
            List.zipWith (List.zipWith (fun x y => (1 / 2) * (x + y)))
              self.effective_area other.effective_area
          geometric := List.zipWith (fun x y => (1 / 2) * (x + y)) self.geometric other.geometric
          pexit := List.zipWith (fun x y => (1 / 2) * (x + y)) self.pexit other.pexit
          pdecay := List.zipWith (fun x y => (1 / 2) * (x + y)) self.pdecay other.pdecay
          ptrigger := List.zipWith (fun x y => (1 / 2) * (x + y)) self.ptrigger other.ptrigger
          args := self.args }

/-- The fixed altitude constant 3.87553 appearing in `from_files`. -/
def refAltitude : ℚ := 387553 / 100000

/-- The loader from_files, modelled over the already-unpickled contents of the
files (file IO is outside the embedding; `from_file` is the identity on a
loaded result).  The first file seeds the accumulator; every later file
is skipped when its recorded args altitude equals 3.87553 and otherwise
folded in with `EffectiveArea.add` (Python `Aeff += A`). -/
def from_files (files : List EffectiveArea) : Except String EffectiveArea :=
  match files with
  | [] => Except.error "No filenames were given to from_files."
  | f :: rest =>
      rest.foldlM
        (fun Aeff A =>
          if A.args.altitude = refAltitude then pure Aeff else Aeff.add A)
        f

/-! ## The per-elevation Monte-Carlo loop of `calculate`

For one elevation bin the loop body consumes, per trial of the batch
returned by the Geometry Sampler:
  * `dot`         — Ag.dot, the directional dot products;
  * `exit`        — the pair (Pexit, Pdecay); `none` models the masked
                    entries of the tau-exit LUT output (no tau exited),
                    a mask that propagates through Etau, decay_length and
                    decay.probability to Pdecay;
  * `ptrigRaw`    — the raw trigger heuristic Ptrig = intensity > 2.4e-9
                    (the exponential-attenuation intensity itself involves
                    exp and is evaluated by the collaborator oracle);
  * `D`, `theta`  — the distance from BEACON to the decay point and the
                    angle below the local horizontal, the two derived
                    geometric quantities (their norm/arccos computation
                    is performed on the oracle side of the interface).
`area` is Ag.area and `emergence` is Ag.emergence, whose emptiness drives
the empty-batch skip. -/
structure BinData where
  emergence : List ℚ
  area : ℚ
  dot : List ℚ
  exit : List (Option (ℚ × ℚ))
  ptrigRaw : List Bool
  D : List ℚ
  theta : List ℚ

/-- The assignment Ptrig[invisible] = 0.0, where invisible = beyond AND below:
the trial is zeroed when D exceeds the horizon distance and theta is
below the horizon angle, jointly. -/
def zeroInvisible (horizonD horizonA : ℚ) (D theta : List ℚ) (p : List Bool) : List Bool :=
  List.zipWith (fun dt pb => if dt.1 > horizonD ∧ dt.2 < horizonA then false else pb)
    (List.zip D theta) p

/-- The assignment Ptrig[theta > 0.0] = 0.0: trials above the payload local
horizontal are zeroed. -/
def zeroAbove (theta : List ℚ) (p : List Bool) : List Bool :=
  List.zipWith (fun t pb => if t > 0 then false else pb) theta p

/-- The two sequential trigger-suppression assignments of the
visibility/horizon filter, in source order. -/
def suppressedTrig (horizonD horizonA : ℚ) (b : BinData) : List Bool :=
  zeroAbove b.theta (zeroInvisible horizonD horizonA b.D b.theta b.ptrigRaw)

/-- np.mean of a masked array: the mean of the unmasked entries only
(masked entries are excluded from numerator and denominator). -/
def maskedMean (xs : List (Option ℚ)) : ℚ :=
  ((xs.filterMap id).sum) / ((xs.filterMap id).length : ℚ)

/-- np.mean of a plain boolean array: the fraction of true entries. -/
def boolMean (bs : List Bool) : ℚ :=
  (((bs.filter (fun x => x)).length : ℚ)) / ((bs.length : ℚ))

/-- One summand of np.sum((Ag.area * Ag.dot * Pexit * Pdecay) * Ptrig):
a masked entry contributes nothing to the sum. -/
def trialContrib (area d : ℚ) (e : Option (ℚ × ℚ)) (t : Bool) : ℚ :=
  match e with
  | none => 0
  | some pp => area * d * pp.1 * pp.2 * (if t then 1 else 0)

/-- The effective-area numerator for one bin, given the (already
suppressed) trigger indicators. -/
def binEffSum (b : BinData) (ptrig : List Bool) : ℚ :=
  (List.zipWith (fun de t => trialContrib b.area de.1 de.2 t) (List.zip b.dot b.exit) ptrig).sum

/-- The same numerator with every trigger indicator forced to 1
(the trigger-free sum `np.sum(Ag.area * Ag.dot * Pexit * Pdecay)`). -/
def binEffSumAll (b : BinData) : ℚ :=
  ((List.zip b.dot b.exit).map (fun de => trialContrib b.area de.1 de.2 true)).sum

/-- The five per-bin statistics written into row i of the output arrays. -/
structure BinOut where
  geometric : ℚ
  pexit : ℚ
  pdecay : ℚ
  ptrigger : ℚ
  eff : ℚ
deriving DecidableEq

/-- The reduction of one non-empty batch (source lines 403-414):
geometric[i] = (Ag.area * sum(Ag.dot)) / ntrials,
pexit[i] = mean(Pexit), pdecay[i] = mean(Pdecay),
ptrigger[i] = mean(Ptrig) with Ptrig after suppression, and
effective_area[i, :] = sum(area * dot * Pexit * Pdecay * Ptrig) / ntrials. -/
def binRow (b : BinData) (n : ℕ) (horizonD horizonA : ℚ) : BinOut :=
  let ptrig := suppressedTrig horizonD horizonA b
  { geometric := b.area * b.dot.sum / (n : ℚ)
    pexit := maskedMean (b.exit.map (Option.map Prod.fst))
    pdecay := maskedMean (b.exit.map (Option.map Prod.snd))
    ptrigger := boolMean ptrig
    eff := binEffSum b ptrig / (n : ℚ) }

/-- The zero-initialised default a skipped bin keeps. -/
def zeroBinOut : BinOut :=
  { geometric := 0, pexit := 0, pdecay := 0, ptrigger := 0, eff := 0 }

/-- What iteration i of the loop leaves in row i of the output arrays:
the zero defaults when the batch is empty (the `continue`), the reduction
of the batch otherwise. -/
def binOut (bins : ℕ → BinData) (N : ℕ → ℕ) (horizonD horizonA : ℚ) (i : ℕ) : BinOut :=
  if (bins i).emergence.isEmpty then zeroBinOut else binRow (bins i) (N i) horizonD horizonA

/-- The event loop `calculate`, embedded over its oracle inputs.

Scalar configuration arguments are carried through to the args snapshot.
`elev` is the elevation grid, `N` the (already broadcast) per-bin trial
counts, `nAz` the size of the azimuth grid, `deg` the radians-to-degrees
conversion applied to the stored grid, `gain` the output of
antenna.directivity (the same in every iteration), `horizonD` and
`horizonA` the outputs of geometry.distance_to_horizon and
geometry.horizon_angle, and `bins i` everything the collaborators hand
the loop body for bin i.

Each iteration writes a disjoint row of the zero-initialised output
arrays, so the loop is equivalent to an index map; the Python local
`gain` is first assigned inside the loop body after the empty-batch
`continue`, so the args dictionary built after the loop raises a
NameError when every iteration skipped (the variable was never bound),
which the embedding surfaces as `Except.error`. -/
def calculate (Enu altitude : ℚ) (prototype : ℤ) (maxview : ℚ) (icethickness : ℤ)
    (antennas : ℤ) (minfreq maxfreq trigger_SNR : ℚ)
    (elev : List ℚ) (N : ℕ → ℕ) (nAz : ℕ) (deg : ℚ → ℚ) (gain : List ℚ)
    (horizonD horizonA : ℚ) (bins : ℕ → BinData) : Except String EffectiveArea :=
  let m := elev.length
  if (List.range m).any (fun i => !(bins i).emergence.isEmpty) then
    Except.ok
      { N0 := (List.range m).map (fun i => ((N i : ℚ)))
        elevation := elev.map deg
        effective_area :=
          (List.range m).map (fun i => List.replicate nAz (binOut bins N horizonD horizonA i).eff)
        geometric := (List.range m).map (fun i => (binOut bins N horizonD horizonA i).geometric)
        pexit := (List.range m).map (fun i => (binOut bins N horizonD horizonA i).pexit)
        pdecay := (List.range m).map (fun i => (binOut bins N horizonD horizonA i).pdecay)
        ptrigger := (List.range m).map (fun i => (binOut bins N horizonD horizonA i).ptrigger)
        args :=
          { Enu := Enu, altitude := altitude, prototype := prototype, maxview := maxview
            icethickness := icethickness, antennas := antennas, gain := gain
            trigger_SNR := trigger_SNR, minfreq := minfreq, maxfreq := maxfreq } }
  else
    Except.error "UnboundLocalError: local variable gain referenced before assignment"

/-! ## Concrete fixtures used by witnesses and counterexamples -/

/-- An args snapshot whose altitude is the reference value 3.87553. -/
def argsRef : Args :=
  { Enu := 1, altitude := refAltitude, prototype := 2018, maxview := 0, icethickness := 0
    antennas := 4, gain := [], trigger_SNR := 5, minfreq := 30, maxfreq := 80 }

/-- An args snapshot whose altitude (4 km) differs from 3.87553. -/
def argsAlt : Args :=
  { Enu := 1, altitude := 4, prototype := 2018, maxview := 0, icethickness := 0
    antennas := 4, gain := [], trigger_SNR := 5, minfreq := 30, maxfreq := 80 }

/-- A one-bin stored result recorded at the reference altitude. -/
def eaA : EffectiveArea :=
  { N0 := [1], elevation := [0], effective_area := [[0]], geometric := [0]
    pexit := [0], pdecay := [0], ptrigger := [0], args := argsRef }

/-- A second one-bin stored result at the reference altitude, on the same grid. -/
def eaB : EffectiveArea :=
  { N0 := [5], elevation := [0], effective_area := [[2]], geometric := [2]
    pexit := [1], pdecay := [1], ptrigger := [1], args := argsRef }

/-- A one-bin stored result recorded at the non-reference altitude 4 km. -/
def eaAltA : EffectiveArea :=
  { N0 := [1], elevation := [0], effective_area := [[0]], geometric := [0]
    pexit := [0], pdecay := [0], ptrigger := [0], args := argsAlt }

/-- Another one-bin result at the non-reference altitude, same grid and args. -/
def eaAltB : EffectiveArea :=
  { N0 := [5], elevation := [0], effective_area := [[2]], geometric := [2]
    pexit := [1], pdecay := [1], ptrigger := [1], args := argsAlt }

/-- A result whose elevation grid [1e-9] is numerically close to, but not
exactly equal to, the grid [0] of eaA. -/
def eaClose : EffectiveArea :=
  { N0 := [5], elevation := [1 / 1000000000], effective_area := [[2]], geometric := [2]
    pexit := [1], pdecay := [1], ptrigger := [1], args := argsRef }

/-- The combined value of eaA and eaB (and, by commutativity of the
averaged fields, of eaB and eaA as well). -/
def eaABsum : EffectiveArea :=
  { N0 := [6], elevation := [0], effective_area := [[1]], geometric := [1]
    pexit := [1 / 2], pdecay := [1 / 2], ptrigger := [1 / 2], args := argsRef }

/-- A bin at which the Geometry Sampler returned zero emerging trials. -/
def binEmpty : BinData :=
  { emergence := [], area := 0, dot := [], exit := [], ptrigRaw := [], D := [], theta := [] }

/-- A minimal non-empty bin: one emerging trial, zero area, no per-trial
collaborator data needed. -/
def binTrivial : BinData :=
  { emergence := [1], area := 0, dot := [], exit := [], ptrigRaw := [], D := [], theta := [] }

/-- The result of the two-bin C7 witness run: the empty bin keeps its
zero-initialised row, the trivial bin reduces to zeros as well. -/
def rC7 : EffectiveArea :=
  { N0 := [1, 1], elevation := [0, 0], effective_area := [[0], [0]], geometric := [0, 0]
    pexit := [0, 0], pdecay := [0, 0], ptrigger := [0, 0], args := argsRef }

/-- A four-trial bin exercising every branch of the visibility filter
(with horizon distance 10 and horizon angle -5): trial 0 is beyond AND
below (invisible), trial 1 is beyond but not below, trial 2 is above the
local horizontal, trial 3 trips no cut. -/
def binC8 : BinData :=
  { emergence := [1, 1, 1, 1], area := 1, dot := [1, 1, 1, 1]
    exit := [some (1, 1), some (1, 1), some (1, 1), some (1, 1)]
    ptrigRaw := [true, true, true, true], D := [20, 20, 0, 0], theta := [-10, -1, 1, -1] }

/-- A two-trial bin whose first trial is masked (no tau exited) and whose
second trial has exit and decay probability 1. -/
def binC4 : BinData :=
  { emergence := [1, 1], area := 1, dot := [1, 1], exit := [none, some (1, 1)]
    ptrigRaw := [true, true], D := [0, 0], theta := [-1, -1] }

/-- A two-trial bin with perfectly correlated exit and decay
probabilities: trial 0 has Pexit = Pdecay = 1, trial 1 has
Pexit = Pdecay = 0, and both trials trigger and are visible. -/
def binC1 : BinData :=
  { emergence := [1, 1], area := 1, dot := [1, 1], exit := [some (1, 1), some (0, 0)]
    ptrigRaw := [true, true], D := [0, 0], theta := [-1, -1] }

/-- The result of running calculate on the single bin binC1 with N = 2. -/
def rC1 : EffectiveArea :=
  { N0 := [2], elevation := [0], effective_area := [[1 / 2]], geometric := [1]
    pexit := [1 / 2], pdecay := [1 / 2], ptrigger := [1], args := argsRef }

/-! ## Theorems -/

/-- Elementwise unweighted averaging of two arrays is symmetric. -/
theorem zipWith_mean_comm (l1 l2 : List ℚ) :
    List.zipWith (fun x y => (1 / 2) * (x + y)) l1 l2 =
      List.zipWith (fun x y => (1 / 2) * (x + y)) l2 l1 :=
  List.zipWith_comm_of_comm _ (fun x y => by ring) l1 l2

/-- Elementwise unweighted averaging of two 2-D grids is symmetric. -/
theorem zipWith_mean2_comm (l1 l2 : List (List ℚ)) :
    List.zipWith (List.zipWith (fun x y => (1 / 2) * (x + y))) l1 l2 =
      List.zipWith (List.zipWith (fun x y => (1 / 2) * (x + y))) l2 l1 :=
  List.zipWith_comm_of_comm _ (fun x y => zipWith_mean_comm x y) l1 l2

/-- Elementwise addition of two arrays is symmetric. -/
theorem zipWith_add_comm (l1 l2 : List ℚ) :
    List.zipWith (fun x y => x + y) l1 l2 = List.zipWith (fun x y => x + y) l2 l1 :=
  List.zipWith_comm_of_comm _ (fun x y => add_comm x y) l1 l2

/-- C3: For any two combinable results A and B (same-length, numerically
close elevation grids and equal args), combine(A, B) has N0 equal to the
elementwise sum A.N0 + B.N0, and each of effective_area, geometric, pexit,
pdecay, ptrigger equal to the elementwise unweighted mean 0.5 * (A.x + B.x),
with no weighting by trial count. -/
theorem combine_sums_N0_and_averages_fields (a b : EffectiveArea)
    (hlen : a.elevation.length = b.elevation.length)
    (hclose : allClose a.elevation b.elevation = true)
    (hargs : a.args = b.args) :
    a.add b = Except.ok
      { N0 := List.zipWith (fun x y => x + y) a.N0 b.N0
        elevation := a.elevation
        effective_area :=
          List.zipWith (List.zipWith (fun x y => (1 / 2) * (x + y)))
            a.effective_area b.effective_area
        geometric := List.zipWith (fun x y => (1 / 2) * (x + y)) a.geometric b.geometric
        pexit := List.zipWith (fun x y => (1 / 2) * (x + y)) a.pexit b.pexit
        pdecay := List.zipWith (fun x y => (1 / 2) * (x + y)) a.pdecay b.pdecay
        ptrigger := List.zipWith (fun x y => (1 / 2) * (x + y)) a.ptrigger b.ptrigger
        args := a.args } := by
  simp [EffectiveArea.add, hlen, hclose, hargs]

/-- Witness for C3 at a concrete pair of one-bin results. -/
theorem combine_sums_N0_and_averages_fields_witness :
    eaA.add eaB = Except.ok
      { N0 := [6], elevation := [0], effective_area := [[1]], geometric := [1]
        pexit := [1 / 2], pdecay := [1 / 2], ptrigger := [1 / 2], args := argsRef } := by
  have h := combine_sums_N0_and_averages_fields eaA eaB (by norm_num [eaA, eaB])
    (by norm_num [eaA, eaB, allClose, isclose, atol, rtol]) (by norm_num [eaA, eaB])
  rw [h]
  norm_num [eaA, eaB]

/-- C6: Combining two results raises a configuration-mismatch error if and
only if their elevation grids differ in length, or are not numerically
close, or their args mappings are not exactly equal; under the precondition
no error is raised. -/
theorem combine_error_iff_mismatch (a b : EffectiveArea) :
    (∃ msg, a.add b = Except.error msg) ↔
      (¬ a.elevation.length = b.elevation.length ∨
        ¬ allClose a.elevation b.elevation = true ∨ ¬ a.args = b.args) := by
  by_cases h1 : a.elevation.length = b.elevation.length
  · by_cases h2 : allClose a.elevation b.elevation = true
    · by_cases h3 : a.args = b.args
      · simp [EffectiveArea.add, h1, h2, h3]
      · simp [EffectiveArea.add, h1, h2, h3]
    · simp [EffectiveArea.add, h1, h2]
  · simp [EffectiveArea.add, h1]

/-- C9: In from_files the altitude filter is applied only to files after
the first: the first file is always included regardless of its recorded
altitude, so a singleton list returns its content unfiltered, and a tail
made entirely of reference-altitude entries is skipped in full. -/
theorem from_files_first_file_unfiltered (f : EffectiveArea) (rest : List EffectiveArea)
    (h : ∀ g ∈ rest, g.args.altitude = refAltitude) :
    from_files (f :: rest) = Except.ok f := by
  induction rest generalizing f with
  | nil => rfl
  | cons g t ih =>
      have hg : g.args.altitude = refAltitude := h g (by simp)
      have ht : ∀ x ∈ t, x.args.altitude = refAltitude := fun x hx => h x (by simp [hx])
      have step : from_files (f :: g :: t) = from_files (f :: t) := by
        simp [from_files, hg]
      rw [step]
      exact ih f ht

/-- Witness for C9: a first file recorded at the reference altitude itself
is still included, and a reference-altitude tail entry is skipped. -/
theorem from_files_first_file_unfiltered_witness :
    from_files [eaA, eaB] = Except.ok eaA := by
  have h := from_files_first_file_unfiltered eaA [eaB]
    (by intro g hg; simp at hg; subst hg; norm_num [eaB, argsRef])
  exact h

/-- C2 counterexample: the claim is false in both directions.  The entry
eaB records exactly the reference altitude 3.87553 yet is skipped, not
combined (the result keeps N0 = [1]; combining would give [6]); the entry
eaAltB records a different altitude (4 km) yet is combined, not skipped
(the result has N0 = [6]). -/
theorem from_files_altitude_filter_counterexample :
    from_files [eaA, eaB] = Except.ok eaA ∧
    eaB.args.altitude = refAltitude ∧
    eaA.N0 = [1] ∧ eaB.N0 = [5] ∧ ([1] : List ℚ) ≠ [6] ∧
    (from_files [eaAltA, eaAltB]).map EffectiveArea.N0 = Except.ok [6] ∧
    ¬ eaAltB.args.altitude = refAltitude := by
  have hpure : ∀ x : EffectiveArea, (pure x : Except String EffectiveArea) = Except.ok x :=
    fun x => rfl
  refine ⟨?_, by norm_num [eaB, argsRef], by norm_num [eaA], by norm_num [eaB],
    by norm_num, ?_, by norm_num [eaAltB, argsAlt, refAltitude]⟩
  · simp [from_files, eaB, argsRef, hpure, Bind.bind, Except.bind]
  · simp [from_files, eaAltB, argsAlt, refAltitude, EffectiveArea.add, eaAltA,
      allClose, isclose, atol, rtol, Except.map]
    norm_num

/-- C2 amended: in from_files, every file after the first whose recorded
altitude EQUALS the fixed reference value 3.87553 is silently skipped, and
every file after the first whose recorded altitude differs from 3.87553 is
combined into the accumulated result. -/
theorem from_files_skips_reference_altitude (f B : EffectiveArea) :
    (B.args.altitude = refAltitude → from_files [f, B] = Except.ok f) ∧
    (¬ B.args.altitude = refAltitude → from_files [f, B] = f.add B) := by
  have hpure : ∀ x : EffectiveArea, (pure x : Except String EffectiveArea) = Except.ok x :=
    fun x => rfl
  constructor
  · intro h; simp [from_files, h, hpure, Bind.bind, Except.bind]
  · intro h; simp [from_files, h]

/-- Witness for the amended C2: a reference-altitude second file is
skipped even under a non-reference first file, and a non-reference second
file is handed to the combination step. -/
theorem from_files_skips_reference_altitude_witness :
    from_files [eaAltA, eaB] = Except.ok eaAltA ∧
    from_files [eaA, eaAltB] = eaA.add eaAltB := by
  constructor
  · exact (from_files_skips_reference_altitude eaAltA eaB).1 (by norm_num [eaB, argsRef])
  · exact (from_files_skips_reference_altitude eaA eaAltB).2
      (by norm_num [eaAltB, argsAlt, refAltitude])

/-- C5 counterexample: two results whose elevation grids are numerically
close but not equal combine in both orders, yet the elevation field of the
two combined results differs (it is copied from the left operand), so not
every field of combine(A, B) equals the corresponding field of
combine(B, A). -/
theorem combine_commutative_counterexample :
    (eaA.add eaClose).map EffectiveArea.elevation = Except.ok [0] ∧
    (eaClose.add eaA).map EffectiveArea.elevation = Except.ok [1 / 1000000000] ∧
    ([0] : List ℚ) ≠ [1 / 1000000000] := by
  refine ⟨?_, ?_, by norm_num⟩
  · norm_num [EffectiveArea.add, eaA, eaClose, allClose, isclose, atol, rtol,
      abs_of_nonneg, abs_of_nonpos, Except.map]
  · norm_num [EffectiveArea.add, eaA, eaClose, allClose, isclose, atol, rtol,
      abs_of_nonneg, abs_of_nonpos, Except.map]

/-- C5 amended: whenever both combination orders succeed, every field of
combine(A, B) except the elevation grid is exactly equal to the
corresponding field of combine(B, A); the elevation field is copied from
the left operand, so the two results are fully equal whenever the two
elevation grids are exactly equal. -/
theorem combine_commutative_except_elevation (a b ra rb : EffectiveArea)
    (hab : a.add b = Except.ok ra) (hba : b.add a = Except.ok rb) :
    ra.N0 = rb.N0 ∧ ra.effective_area = rb.effective_area ∧
    ra.geometric = rb.geometric ∧ ra.pexit = rb.pexit ∧ ra.pdecay = rb.pdecay ∧
    ra.ptrigger = rb.ptrigger ∧ ra.args = rb.args ∧
    ra.elevation = a.elevation ∧ rb.elevation = b.elevation ∧
    (a.elevation = b.elevation → ra = rb) := by
  by_cases h1 : a.elevation.length = b.elevation.length
  case neg => simp [EffectiveArea.add, h1] at hab
  by_cases h2 : allClose a.elevation b.elevation = true
  case neg => simp [EffectiveArea.add, h1, h2] at hab
  by_cases h3 : a.args = b.args
  case neg => simp [EffectiveArea.add, h1, h2, h3] at hab
  by_cases h4 : allClose b.elevation a.elevation = true
  case neg => simp [EffectiveArea.add, h1.symm, h4] at hba
  simp only [EffectiveArea.add] at hab hba
  rw [if_neg (not_not_intro h1), if_neg (not_not_intro h2), if_neg (not_not_intro h3)] at hab
  rw [if_neg (not_not_intro h1.symm), if_neg (not_not_intro h4),
    if_neg (not_not_intro h3.symm)] at hba
  rw [Except.ok.injEq] at hab hba
  subst hab
  subst hba
  refine ⟨zipWith_add_comm _ _, zipWith_mean2_comm _ _, zipWith_mean_comm _ _,
    zipWith_mean_comm _ _, zipWith_mean_comm _ _, zipWith_mean_comm _ _, h3, rfl, rfl, ?_⟩
  intro helev
  rw [zipWith_add_comm a.N0 b.N0, zipWith_mean2_comm a.effective_area b.effective_area,
    zipWith_mean_comm a.geometric b.geometric, zipWith_mean_comm a.pexit b.pexit,
    zipWith_mean_comm a.pdecay b.pdecay, zipWith_mean_comm a.ptrigger b.ptrigger, helev, h3]

/-- Witness for the amended C5 at a concrete pair whose elevation grids
are exactly equal: the two combination orders give fully equal results. -/
theorem combine_commutative_except_elevation_witness : eaA.add eaB = eaB.add eaA := by
  have hab : eaA.add eaB = Except.ok eaABsum := by
    norm_num [EffectiveArea.add, eaA, eaB, eaABsum, allClose, isclose, atol, rtol]
  have hba : eaB.add eaA = Except.ok eaABsum := by
    norm_num [EffectiveArea.add, eaA, eaB, eaABsum, allClose, isclose, atol, rtol]
  exact hab.trans ((congrArg Except.ok ((combine_commutative_except_elevation eaA eaB
    eaABsum eaABsum hab hba).2.2.2.2.2.2.2.2.2 rfl)).trans hba.symm)

/-- Reading index i of an array written by mapping over the loop index
range recovers the value written by iteration i. -/
theorem getD_map_range {α : Type} (f : ℕ → α) (m i : ℕ) (hi : i < m) (d : α) :
    ((List.range m).map f).getD i d = f i := by
  rw [List.getD_eq_getElem ((List.range m).map f) d (by simpa using hi), List.getElem_map]
  simp

/-- Evaluation of the two-bin C7 witness run of calculate: bin 0 has an
empty batch, bin 1 a trivial non-empty batch, so the run completes. -/
theorem calc_c7_eval :
    calculate 1 refAltitude 2018 0 0 4 30 80 5 [0, 0] (fun _ => 1) 1
      (fun x => x) [] 10 (-5) (fun i => if i = 0 then binEmpty else binTrivial) =
      Except.ok rC7 := by
  norm_num [calculate, binOut, binRow, binEmpty, binTrivial, zeroBinOut, suppressedTrig,
    zeroAbove, zeroInvisible, maskedMean, boolMean, binEffSum, List.range_succ, rC7, argsRef]

/-- C7: For every elevation bin at which the Geometry Sampler returns zero
trials, a completed calculate run leaves that bin at its zero-initialised
defaults: geometric[i] = pexit[i] = pdecay[i] = ptrigger[i] = 0 and
effectiveArea[i, :] = 0. -/
theorem empty_batch_bin_outputs_zero
    (Enu altitude : ℚ) (prototype : ℤ) (maxview : ℚ) (icethickness antennas : ℤ)
    (minfreq maxfreq trigger_SNR : ℚ) (elev : List ℚ) (N : ℕ → ℕ) (nAz : ℕ)
    (deg : ℚ → ℚ) (gain : List ℚ) (horizonD horizonA : ℚ) (bins : ℕ → BinData)
    (r : EffectiveArea)
    (hok : calculate Enu altitude prototype maxview icethickness antennas minfreq
      maxfreq trigger_SNR elev N nAz deg gain horizonD horizonA bins = Except.ok r)
    (i : ℕ) (hi : i < elev.length) (hemp : (bins i).emergence = []) :
    r.geometric.getD i 1 = 0 ∧ r.pexit.getD i 1 = 0 ∧ r.pdecay.getD i 1 = 0 ∧
    r.ptrigger.getD i 1 = 0 ∧ r.effective_area.getD i [1] = List.replicate nAz 0 := by
  simp only [calculate] at hok
  by_cases hc : (List.range elev.length).any (fun j => !(bins j).emergence.isEmpty) = true
  · rw [if_pos hc, Except.ok.injEq] at hok
    subst hok
    have hbout : binOut bins N horizonD horizonA i = zeroBinOut := by
      simp [binOut, hemp]
    refine ⟨?_, ?_, ?_, ?_, ?_⟩
    · rw [getD_map_range _ _ _ hi, hbout]; rfl
    · rw [getD_map_range _ _ _ hi, hbout]; rfl
    · rw [getD_map_range _ _ _ hi, hbout]; rfl
    · rw [getD_map_range _ _ _ hi, hbout]; rfl
    · rw [getD_map_range _ _ _ hi, hbout]; rfl
  · rw [if_neg hc] at hok
    exact absurd hok (by simp)

/-- Witness for C7 on the concrete two-bin run: the empty bin 0 of the
completed run holds only zeros. -/
theorem empty_batch_bin_outputs_zero_witness :
    rC7.geometric.getD 0 1 = 0 ∧ rC7.pexit.getD 0 1 = 0 ∧ rC7.pdecay.getD 0 1 = 0 ∧
    rC7.ptrigger.getD 0 1 = 0 ∧ rC7.effective_area.getD 0 [1] = List.replicate 1 0 :=
  empty_batch_bin_outputs_zero 1 refAltitude 2018 0 0 4 30 80 5 [0, 0] (fun _ => 1) 1
    (fun x => x) [] 10 (-5) (fun i => if i = 0 then binEmpty else binTrivial) rC7
    calc_c7_eval 0 (by norm_num) (by simp [binEmpty])

/-- C10: If every elevation bin yields an empty batch, calculate does not
return a zero-filled result: the gain value stored in the args mapping is
only assigned inside the loop body after the empty-batch skip, so the run
fails with an unbound-variable error. -/
theorem all_empty_batches_unbound_gain_error
    (Enu altitude : ℚ) (prototype : ℤ) (maxview : ℚ) (icethickness antennas : ℤ)
    (minfreq maxfreq trigger_SNR : ℚ) (elev : List ℚ) (N : ℕ → ℕ) (nAz : ℕ)
    (deg : ℚ → ℚ) (gain : List ℚ) (horizonD horizonA : ℚ) (bins : ℕ → BinData)
    (h : ∀ i, i < elev.length → (bins i).emergence.isEmpty = true) :
    calculate Enu altitude prototype maxview icethickness antennas minfreq
      maxfreq trigger_SNR elev N nAz deg gain horizonD horizonA bins =
      Except.error "UnboundLocalError: local variable gain referenced before assignment" := by
  have h' : ¬ ((List.range elev.length).any (fun j => !(bins j).emergence.isEmpty) = true) := by
    simp only [List.any_eq_true, List.mem_range, Bool.not_eq_true']
    rintro ⟨i, hi, hb⟩
    rw [h i hi] at hb
    simp at hb
  simp only [calculate]
  rw [if_neg h']

/-- Witness for C10: a one-bin grid whose only batch is empty makes
calculate fail with the unbound-gain error. -/
theorem all_empty_batches_unbound_gain_error_witness :
    calculate 1 refAltitude 2018 0 0 4 30 80 5 [0] (fun _ => 1) 1 (fun x => x) [] 10 (-5)
      (fun _ => binEmpty) =
      Except.error "UnboundLocalError: local variable gain referenced before assignment" :=
  all_empty_batches_unbound_gain_error 1 refAltitude 2018 0 0 4 30 80 5 [0] (fun _ => 1) 1
    (fun x => x) [] 10 (-5) (fun _ => binEmpty) (fun i _ => by simp [binEmpty])

/-- Reading entry i of an elementwise combination of two arrays gives the
combination of the entries, for any in-range index. -/
theorem getD_zipWith {α β γ : Type} (f : α → β → γ) (l1 : List α) (l2 : List β)
    (i : ℕ) (d1 : α) (d2 : β) (d3 : γ) (h1 : i < l1.length) (h2 : i < l2.length) :
    (List.zipWith f l1 l2).getD i d3 = f (l1.getD i d1) (l2.getD i d2) := by
  induction l1 generalizing l2 i with
  | nil => simp at h1
  | cons a t ih =>
      cases l2 with
      | nil => simp at h2
      | cons b s =>
          cases i with
          | zero => rfl
          | succ n =>
              simp only [List.zipWith_cons_cons, List.getD_cons_succ]
              exact ih s n (by simpa using h1) (by simpa using h2)

/-- The per-trial value of the suppressed trigger array: first the joint
beyond-and-below cut, then the above-horizontal cut, in source order
(which collapses to the stated disjunction). -/
theorem suppressedTrig_getD (horizonD horizonA : ℚ) (b : BinData) (i : ℕ)
    (hDT : b.D.length = b.theta.length) (hTP : b.theta.length = b.ptrigRaw.length)
    (hi : i < b.D.length) :
    (suppressedTrig horizonD horizonA b).getD i true =
      (if b.theta.getD i 0 > 0 then false else
        if b.D.getD i 0 > horizonD ∧ b.theta.getD i 0 < horizonA then false
        else b.ptrigRaw.getD i false) := by
  have hzip : i < (List.zip b.D b.theta).length := by
    rw [List.length_zip]; omega
  have hinner : i < (zeroInvisible horizonD horizonA b.D b.theta b.ptrigRaw).length := by
    unfold zeroInvisible
    rw [List.length_zipWith, List.length_zip]
    omega
  unfold suppressedTrig zeroAbove
  rw [getD_zipWith _ b.theta _ i 0 false true (by omega) hinner]
  unfold zeroInvisible
  rw [getD_zipWith _ (List.zip b.D b.theta) b.ptrigRaw i (0, 0) false false hzip (by omega)]
  rw [List.zip_eq_zipWith, getD_zipWith Prod.mk b.D b.theta i 0 0 (0, 0) hi (by omega)]

/-- C8: A trial whose decay point is both beyond the horizon distance and
below the horizon angle, or whose theta exceeds 0, has its trigger
indicator set to zero, contributing nothing to the trigger statistics or
to the effective-area sum; a trial meeting only one of the two
invisibility conditions (with theta <= 0) keeps its raw trigger value;
the exit and decay probability reductions are untouched by the filter. -/
theorem visibility_filter_suppression (horizonD horizonA : ℚ) (b : BinData) (n i : ℕ)
    (hDT : b.D.length = b.theta.length) (hTP : b.theta.length = b.ptrigRaw.length)
    (hi : i < b.D.length) :
    (((b.D.getD i 0 > horizonD ∧ b.theta.getD i 0 < horizonA) ∨ b.theta.getD i 0 > 0) →
      (suppressedTrig horizonD horizonA b).getD i true = false) ∧
    ((¬ (b.D.getD i 0 > horizonD ∧ b.theta.getD i 0 < horizonA) ∧ ¬ b.theta.getD i 0 > 0) →
      (suppressedTrig horizonD horizonA b).getD i true = b.ptrigRaw.getD i false) ∧
    (∀ area d pe pd, trialContrib area d (some (pe, pd)) false = 0) ∧
    (∀ p : List Bool, boolMean p = ((p.filter (fun x => x)).length : ℚ) / ((p.length : ℚ))) ∧
    (binRow b n horizonD horizonA).pexit = maskedMean (b.exit.map (Option.map Prod.fst)) ∧
    (binRow b n horizonD horizonA).pdecay = maskedMean (b.exit.map (Option.map Prod.snd)) := by
  rw [suppressedTrig_getD horizonD horizonA b i hDT hTP hi]
  refine ⟨?_, ?_, ?_, fun p => rfl, rfl, rfl⟩
  · rintro (hinv | habove)
    · by_cases hth : b.theta.getD i 0 > 0
      · rw [if_pos hth]
      · rw [if_neg hth, if_pos hinv]
    · rw [if_pos habove]
  · rintro ⟨hinv, habove⟩
    rw [if_neg habove, if_neg hinv]
  · intro area d pe pd
    simp [trialContrib]

/-- Witness for C8 on binC8: trial 0 (beyond and below) is zeroed, trial 1
(beyond but not below, theta below horizontal) keeps its raw value. -/
theorem visibility_filter_suppression_witness :
    (suppressedTrig 10 (-5) binC8).getD 0 true = false ∧
    (suppressedTrig 10 (-5) binC8).getD 1 true = binC8.ptrigRaw.getD 1 false := by
  constructor
  · exact (visibility_filter_suppression 10 (-5) binC8 1 0 (by norm_num [binC8])
      (by norm_num [binC8]) (by norm_num [binC8])).1
      (by norm_num [binC8])
  · exact (visibility_filter_suppression 10 (-5) binC8 1 1 (by norm_num [binC8])
      (by norm_num [binC8]) (by norm_num [binC8])).2.1
      (by norm_num [binC8])

/-- Unmasking an arraywise function application commutes with dropping
the masked entries. -/
theorem filterMap_id_map_option (f : (ℚ × ℚ) → ℚ) (l : List (Option (ℚ × ℚ))) :
    (l.map (Option.map f)).filterMap id = (l.filterMap id).map f := by
  rw [List.filterMap_map, List.map_filterMap]
  rfl

/-- np.mean of a masked projection averages the projections of the
unmasked entries, with the unmasked count as denominator. -/
theorem maskedMean_map (f : (ℚ × ℚ) → ℚ) (l : List (Option (ℚ × ℚ))) :
    maskedMean (l.map (Option.map f)) =
      ((l.filterMap id).map f).sum / (((l.filterMap id).length : ℚ)) := by
  rw [maskedMean, filterMap_id_map_option f l, List.length_map]

/-- C4 counterexample: for the bin binC4 (two trials, N = 2, the first
masked as no-exit, the second with exit probability 1), the claim
predicts pexit[0] = (0 + 1) / 2 = 1/2 (no-exit trial counted as zero in
a mean over all N trials), but calculate stores pexit[0] = 1: np.mean of
a masked array drops masked entries from the denominator instead of
counting them as zero. -/
theorem no_exit_mean_counterexample :
    (calculate 1 refAltitude 2018 0 0 4 30 80 5 [0] (fun _ => 2) 1 (fun x => x) [] 10 (-5)
      (fun _ => binC4)).map EffectiveArea.pexit = Except.ok [1] ∧
    ((1 : ℚ) ≠ (0 + 1) / 2) := by
  constructor
  · norm_num [calculate, binOut, binRow, binC4, suppressedTrig, zeroAbove, zeroInvisible,
      maskedMean, boolMean, binEffSum, List.range_succ, Except.map, zeroBinOut,
      List.filterMap_cons, List.filterMap_nil]
  · norm_num

/-- C4 amended: pexit[i] (and pdecay[i]) is the mean of the unmasked
per-trial probabilities only — no-exit trials are excluded from both the
numerator and the denominator of the mean, rather than contributing zero
over all N[i] trials — while a no-exit trial does contribute exactly zero
to the effective-area sum. -/
theorem pexit_mean_over_exiting_trials (b : BinData) (n : ℕ) (horizonD horizonA : ℚ) :
    (binRow b n horizonD horizonA).pexit =
      ((b.exit.filterMap id).map Prod.fst).sum / (((b.exit.filterMap id).length : ℚ)) ∧
    (binRow b n horizonD horizonA).pdecay =
      ((b.exit.filterMap id).map Prod.snd).sum / (((b.exit.filterMap id).length : ℚ)) ∧
    (∀ d t, trialContrib b.area d none t = 0) :=
  ⟨maskedMean_map Prod.fst b.exit, maskedMean_map Prod.snd b.exit, fun _ _ => rfl⟩

/-- A trial summand of the effective-area numerator is nonnegative when
the area, the dot product and the probabilities are nonnegative. -/
theorem trialContrib_nonneg (area d : ℚ) (e : Option (ℚ × ℚ)) (t : Bool)
    (ha : 0 ≤ area) (hd : 0 ≤ d)
    (he : ∀ pe pd, e = some (pe, pd) → 0 ≤ pe ∧ 0 ≤ pd) :
    0 ≤ trialContrib area d e t := by
  cases e with
  | none => simp [trialContrib]
  | some pp =>
      obtain ⟨hpe, hpd⟩ := he pp.1 pp.2 rfl
      cases t
      · simp [trialContrib]
      · simp only [trialContrib, if_pos, mul_one, ite_true]
        exact mul_nonneg (mul_nonneg (mul_nonneg ha hd) hpe) hpd

/-- Forcing the trigger indicator of a trial to 1 can only increase its
summand, under the same nonnegativity assumptions. -/
theorem trialContrib_le_true (area d : ℚ) (e : Option (ℚ × ℚ)) (t : Bool)
    (ha : 0 ≤ area) (hd : 0 ≤ d)
    (he : ∀ pe pd, e = some (pe, pd) → 0 ≤ pe ∧ 0 ≤ pd) :
    trialContrib area d e t ≤ trialContrib area d e true := by
  cases e with
  | none => simp [trialContrib]
  | some pp =>
      obtain ⟨hpe, hpd⟩ := he pp.1 pp.2 rfl
      have hX : 0 ≤ area * d * pp.1 * pp.2 :=
        mul_nonneg (mul_nonneg (mul_nonneg ha hd) hpe) hpd
      cases t
      · simp only [trialContrib]
        simpa using hX
      · exact le_refl _

/-- The effective-area numerator with any trigger indicators is bounded
by the trigger-free numerator. -/
theorem binEffSum_le (b : BinData) (p : List Bool)
    (ha : 0 ≤ b.area) (hd : ∀ d ∈ b.dot, 0 ≤ d)
    (he : ∀ e ∈ b.exit, ∀ pe pd, e = some (pe, pd) → 0 ≤ pe ∧ 0 ≤ pd) :
    binEffSum b p ≤ binEffSumAll b := by
  have hmem : ∀ de ∈ List.zip b.dot b.exit,
      0 ≤ de.1 ∧ ∀ pe pd, de.2 = some (pe, pd) → 0 ≤ pe ∧ 0 ≤ pd := by
    intro de hde
    obtain ⟨d1, e1⟩ := de
    exact ⟨hd d1 (List.of_mem_zip hde).1, he e1 (List.of_mem_zip hde).2⟩
  unfold binEffSum binEffSumAll
  generalize List.zip b.dot b.exit = l at hmem ⊢
  induction l generalizing p with
  | nil => simp
  | cons x xs ih =>
      cases p with
      | nil =>
          simp only [List.zipWith_nil_right, List.sum_nil]
          apply List.sum_nonneg
          intro y hy
          obtain ⟨z, hz, rfl⟩ := List.mem_map.mp hy
          exact trialContrib_nonneg b.area z.1 z.2 true ha (hmem z hz).1 (hmem z hz).2
      | cons q qs =>
          simp only [List.zipWith_cons_cons, List.map_cons, List.sum_cons]
          have h1 := trialContrib_le_true b.area x.1 x.2 q ha
            (hmem x (List.mem_cons_self x xs)).1 (hmem x (List.mem_cons_self x xs)).2
          have h2 := ih qs (fun z hz => hmem z (List.mem_cons_of_mem x hz))
          exact add_le_add h1 h2

/-- The trigger-free effective-area numerator is nonnegative under the
same assumptions. -/
theorem binEffSumAll_nonneg (b : BinData)
    (ha : 0 ≤ b.area) (hd : ∀ d ∈ b.dot, 0 ≤ d)
    (he : ∀ e ∈ b.exit, ∀ pe pd, e = some (pe, pd) → 0 ≤ pe ∧ 0 ≤ pd) :
    0 ≤ binEffSumAll b := by
  unfold binEffSumAll
  apply List.sum_nonneg
  intro y hy
  obtain ⟨z, hz, rfl⟩ := List.mem_map.mp hy
  obtain ⟨d1, e1⟩ := z
  exact trialContrib_nonneg b.area d1 e1 true ha (hd d1 (List.of_mem_zip hz).1)
    (he e1 (List.of_mem_zip hz).2)

/-- Evaluation of the one-bin C1 run of calculate on binC1 with N = 2. -/
theorem calc_c1_eval :
    calculate 1 refAltitude 2018 0 0 4 30 80 5 [0] (fun _ => 2) 1 (fun x => x) [] 10 (-5)
      (fun _ => binC1) = Except.ok rC1 := by
  norm_num [calculate, binOut, binRow, binC1, suppressedTrig, zeroAbove, zeroInvisible,
    maskedMean, boolMean, binEffSum, List.range_succ, zeroBinOut, rC1, argsRef,
    List.filterMap_cons, List.filterMap_nil, trialContrib]

/-- C1 counterexample: on the binC1 run the stored row is
effectiveArea[0, :] = [1/2], while geometric[0] * pexit[0] * pdecay[0] =
1 * 1/2 * 1/2 = 1/4, so the claimed factorized bound fails: perfectly
correlated per-trial exit and decay probabilities make the mean of the
product exceed the product of the means. -/
theorem effective_area_factor_bound_counterexample :
    (calculate 1 refAltitude 2018 0 0 4 30 80 5 [0] (fun _ => 2) 1 (fun x => x) [] 10 (-5)
      (fun _ => binC1)).map
        (fun r => (r.effective_area, r.geometric, r.pexit, r.pdecay)) =
      Except.ok ([[(1 : ℚ) / 2]], [1], [1 / 2], [1 / 2]) ∧
    ¬ ((1 : ℚ) / 2 ≤ 1 * (1 / 2) * (1 / 2)) := by
  constructor
  · rw [calc_c1_eval]
    norm_num [rC1, Except.map]
  · norm_num

/-- C1 amended: the trigger factor only ever reduces the stored row — for
a completed calculate run with nonnegative area, dot products and
probabilities, every entry of effectiveArea[i, :] is bounded by the
trigger-free per-bin sum of area * dot * Pexit * Pdecay over N[i]; the
factorized bound geometric[i] * pexit[i] * pdecay[i] of the original
claim can be exceeded (see the counterexample). -/
theorem trigger_only_reduces_effective_area
    (Enu altitude : ℚ) (prototype : ℤ) (maxview : ℚ) (icethickness antennas : ℤ)
    (minfreq maxfreq trigger_SNR : ℚ) (elev : List ℚ) (N : ℕ → ℕ) (nAz : ℕ)
    (deg : ℚ → ℚ) (gain : List ℚ) (horizonD horizonA : ℚ) (bins : ℕ → BinData)
    (r : EffectiveArea)
    (hok : calculate Enu altitude prototype maxview icethickness antennas minfreq
      maxfreq trigger_SNR elev N nAz deg gain horizonD horizonA bins = Except.ok r)
    (i : ℕ) (hi : i < elev.length)
    (ha : 0 ≤ (bins i).area) (hd : ∀ d ∈ (bins i).dot, 0 ≤ d)
    (he : ∀ e ∈ (bins i).exit, ∀ pe pd, e = some (pe, pd) → 0 ≤ pe ∧ 0 ≤ pd) :
    ∀ x ∈ r.effective_area.getD i [], x ≤ binEffSumAll (bins i) / ((N i : ℚ)) := by
  simp only [calculate] at hok
  by_cases hc : (List.range elev.length).any (fun j => !(bins j).emergence.isEmpty) = true
  · rw [if_pos hc, Except.ok.injEq] at hok
    subst hok
    simp only [EffectiveArea.effective_area]
    rw [getD_map_range _ _ _ hi]
    intro x hx
    rw [List.mem_replicate] at hx
    obtain ⟨-, rfl⟩ := hx
    by_cases hemp : (bins i).emergence.isEmpty
    · simp only [binOut, hemp, ite_true, zeroBinOut]
      exact div_nonneg (binEffSumAll_nonneg (bins i) ha hd he) (by positivity)
    · simp only [binOut, hemp, ite_false, binRow, Bool.false_eq_true, if_false]
      rcases Nat.eq_zero_or_pos (N i) with h0 | hpos
      · simp [h0]
      · rw [div_le_div_iff_of_pos_right (by exact_mod_cast hpos)]
        exact binEffSum_le (bins i) _ ha hd he
  · rw [if_neg hc] at hok
    exact absurd hok (by simp)

/-- Witness for the amended C1 on the binC1 run: the stored entry 1/2 is
bounded by the trigger-free sum 1 over N = 2. -/
theorem trigger_only_reduces_effective_area_witness :
    (1 : ℚ) / 2 ≤ binEffSumAll binC1 / ((2 : ℕ) : ℚ) := by
  have h := trigger_only_reduces_effective_area 1 refAltitude 2018 0 0 4 30 80 5 [0]
    (fun _ => 2) 1 (fun x => x) [] 10 (-5) (fun _ => binC1) rC1 calc_c1_eval 0
    (by norm_num)
    (by norm_num [binC1])
    (by
      intro d hdm
      simp only [binC1, List.mem_cons, List.not_mem_nil, or_false] at hdm
      rcases hdm with rfl | rfl <;> norm_num)
    (by
      intro e hee pe pd heq
      simp only [binC1, List.mem_cons, List.not_mem_nil, or_false] at hee
      rcases hee with rfl | rfl <;> rw [Option.some.injEq, Prod.mk.injEq] at heq <;>
        obtain ⟨rfl, rfl⟩ := heq <;> norm_num)
  exact h ((1 : ℚ) / 2) (by norm_num [rC1])

end Poinsseta
